import Mathlib

/-!
Verification development for the `pgs` library: a parser and decoder for
Presentation Graphic Stream (PGS) subtitle bitstreams.  The definitions below
are a shallow embedding of the Rust source: byte streams are `List ℕ` (each
element a byte value < 256), machine integers are `ℕ` with explicit `% 2^32`
where wrap-around matters, fallible operations return `Except PgsError`, and
the `f32` arithmetic used by the YCbCr→RGB conversion is modelled exactly:
every `f32` value of the binary32 normal range is an integer multiple of
`2^(-150)`, so values are carried as scaled integers (`v : ℤ` denotes
`v / 2^150`) and each operation rounds its exact result to the 24-bit
significand grid, to nearest, ties to even — the IEEE-754 semantics of the
Rust operations on the whole normal range, which the conversions here never
leave (all their values are multiples of `2^(-50)` and smaller than `2^10`
in magnitude).
-/

set_option autoImplicit false
set_option maxRecDepth 100000
set_option exponentiation.threshold 1000

namespace Pgs

/-! ### A model of `f32` arithmetic as scaled integers -/

/-- Scale exponent: a model value `v : ℤ` denotes the real number `v / 2^fscale`. -/
def fscale : ℕ := 150

/-- Floor of `log₂ n` for `n ≥ 1`, by fuelled halving (the fuel bounds the
result, and every number in this development is far below `2^2000`). -/
def natLog2F : ℕ → ℕ → ℕ
  | 0, _ => 0
  | fuel + 1, n => if n < 2 then 0 else natLog2F fuel (n / 2) + 1

/-- Floor of `log₂ (p / q)` for `p, q ≥ 1`, by fuelled doubling of the smaller
side. -/
def floorLog2Q : ℕ → ℕ → ℕ → ℤ
  | 0, _, _ => 0
  | fuel + 1, p, q =>
    if p < q then floorLog2Q fuel (2 * p) q - 1
    else if 2 * q ≤ p then floorLog2Q fuel p (2 * q) + 1
    else 0

/-- Round `p / d` (`d ≥ 1`) to the nearest integer, ties to even. -/
def rne (p d : ℕ) : ℕ :=
  let q := p / d
  let r := p % d
  if 2 * r < d then q
  else if d < 2 * r then q + 1
  else if q % 2 = 0 then q else q + 1

/-- Round the positive rational `p / q` to the nearest binary32 value
(ties to even), returned scaled by `2^fscale`.  The significand is the
integer nearest `p/q · 2^(23-e)` with `e = ⌊log₂(p/q)⌋`, placed back at
exponent `e - 23`; a carry into `2^24` lands on the next exponent's grid,
which is exact as well. -/
def f32roundPos (p q : ℕ) : ℤ :=
  let e := floorLog2Q 2000 p q
  let m := if 0 ≤ 23 - e then rne (p * 2 ^ (23 - e).toNat) q
           else rne p (q * 2 ^ (e - 23).toNat)
  ((m * 2 ^ ((fscale : ℤ) + e - 23).toNat : ℕ) : ℤ)

/-- Round the exact rational `p / q` (`q ≥ 1`) to the nearest binary32 value
(ties to even), scaled by `2^fscale`. -/
def f32round (p : ℤ) (q : ℕ) : ℤ :=
  if p = 0 then 0
  else if p < 0 then -f32roundPos p.natAbs q
  else f32roundPos p.natAbs q

/-- The `f32` value of a small natural number (exact for all byte values). -/
def fofNat (n : ℕ) : ℤ := (n : ℤ) * 2 ^ fscale

/-- `f32` addition: exact sum, rounded. -/
def fadd (a b : ℤ) : ℤ := f32round (a + b) (2 ^ fscale)

/-- `f32` subtraction: exact difference, rounded. -/
def fsub (a b : ℤ) : ℤ := f32round (a - b) (2 ^ fscale)

/-- `f32` multiplication: exact product (at scale `2·fscale`), rounded. -/
def fmul (a b : ℤ) : ℤ := f32round (a * b) (2 ^ (2 * fscale))

/-- The `f32` value of the Rust literal `1.40200`. -/
def lit1402 : ℤ := f32round 1402 1000

/-- The `f32` value of the Rust literal `0.34414`. -/
def lit034414 : ℤ := f32round 34414 100000

/-- The `f32` value of the Rust literal `0.71414`. -/
def lit071414 : ℤ := f32round 71414 100000

/-- The `f32` value of the Rust literal `1.77200`. -/
def lit1772 : ℤ := f32round 1772 1000

/-- Rust `x.clamp(0.0, 255.0)` (the values produced here are never NaN). -/
def fclamp (v : ℤ) : ℤ := max 0 (min v (fofNat 255))

/-- Rust `as u8` on a value already clamped to `[0, 255]`: truncation. -/
def ftoU8 (v : ℤ) : ℕ := v.toNat / 2 ^ fscale

/-! ### Colour conversion (`src/pgs_decode_rle.rs`) -/

/-- `byte_to_int`: converts a single byte to an unsigned 32-bit integer. -/
def byte_to_int (b : ℕ) : ℕ := b

/-- `calc_red`: `(y as f32 + 1.40200 * (cr as f32 - 0x80 as f32)).clamp(0.0, 255.0) as u8`. -/
def calc_red (y cr : ℕ) : ℕ :=
  ftoU8 (fclamp (fadd (fofNat y) (fmul lit1402 (fsub (fofNat cr) (fofNat 128)))))

/-- `calc_green`: `(y as f32 - 0.34414 * (cb as f32 - 0x80 as f32) - 0.71414 * (cr as f32 - 0x80 as f32)).clamp(0.0, 255.0) as u8`. -/
def calc_green (y cb cr : ℕ) : ℕ :=
  ftoU8 (fclamp (fsub (fsub (fofNat y) (fmul lit034414 (fsub (fofNat cb) (fofNat 128))))
    (fmul lit071414 (fsub (fofNat cr) (fofNat 128)))))

/-- `calc_blue`: `(y as f32 + 1.77200 * (cb as f32 - 0x80 as f32)).clamp(0.0, 255.0) as u8`. -/
def calc_blue (y cb : ℕ) : ℕ :=
  ftoU8 (fclamp (fadd (fofNat y) (fmul lit1772 (fsub (fofNat cb) (fofNat 128)))))

/-- `get_argb`: packs `calc_blue | calc_green << 8 | calc_red << 16 | transparency << 24`. -/
def get_argb (y cb cr transparency : ℕ) : ℕ :=
  calc_blue y cb ||| (calc_green y cb cr <<< 8) ||| (calc_red y cr <<< 16) |||
    (transparency <<< 24)

/-- `calc_gray`: `tmp = 255 - transparency * luminance / 255; tmp | tmp << 8 | tmp << 16`
(all in `u32`; for byte inputs no wrap-around can occur). -/
def calc_gray (transparency luminance : ℕ) : ℕ :=
  let tmp : ℕ := 255 - transparency * luminance / 255
  tmp ||| (tmp <<< 8) ||| (tmp <<< 16)

example : calc_red 128 128 = 128 := by decide
example : calc_red 255 128 = 255 := by decide
example : calc_red 0 128 = 0 := by decide
example : calc_green 128 128 128 = 128 := by decide
example : calc_blue 128 128 = 128 := by decide
example : get_argb 128 128 128 255 = 0xFF808080 := by decide
example : calc_gray 0 255 = 0xFFFFFF := by decide
example : calc_gray 255 255 = 0x000000 := by decide
example : calc_gray 128 255 = 0x7F7F7F := by decide
example : calc_gray 128 128 = 0xBFBFBF := by decide
example : calc_red 150 200 = 0xFA := by decide
example : calc_green 150 200 200 = 0x49 := by decide
example : calc_blue 150 200 = 0xFF := by decide

/-! ### Error type (`src/pgs_error.rs`)

`File` stands for `Error::File(io_error)`; every end-of-data read failure in
the source produces this variant.  `RuntimeFault` is not a Rust `Error`
variant: it marks a Rust panic — the index-out-of-bounds write that an
over-long RLE run triggers in `decode_rle`, or an `unwrap()` of a missing
segment — which aborts without producing a value. -/

inductive PgsError where
  | File
  | InvalidInputArray
  | ReadInvalidSegment
  | InvalidSegmentDataLength
  | IncompleteDisplaySet
  | RuntimeFault
  deriving DecidableEq, Repr

/-! ### Segment types and headers (`src/pgs_segment_type.rs`, `src/pgs_segment_header.rs`) -/

inductive PgsSegmentType where
  | PDS
  | ODS
  | PCS
  | WDS
  | END
  | ERR
  deriving DecidableEq, Repr

/-- `From<u8> for PgsSegmentType`: `0x14/0x15/0x16/0x17/0x80`, else `ERR`. -/
def PgsSegmentType.fromByte (value : ℕ) : PgsSegmentType :=
  if value = 0x14 then .PDS
  else if value = 0x15 then .ODS
  else if value = 0x16 then .PCS
  else if value = 0x17 then .WDS
  else if value = 0x80 then .END
  else .ERR

structure PgsSegmentHeader where
  segment_type : PgsSegmentType
  segment_length : ℕ
  presentation_timestamp : ℕ
  decoding_timestamp : ℕ
  deriving DecidableEq, Repr

/-! ### PDS segments (`src/pgs_pds_segment.rs`) -/

structure PgsPdsSegmentPaletteEntry where
  palette_entry_id : ℕ
  luminance : ℕ
  color_difference_red : ℕ
  color_difference_blue : ℕ
  transparency : ℕ
  deriving DecidableEq, Repr

structure PgsPdsSegment where
  header : PgsSegmentHeader
  palette_id : ℕ
  palette_version_number : ℕ
  palette_entries : List PgsPdsSegmentPaletteEntry
  deriving DecidableEq, Repr

/-! ### ODS segments (`src/pgs_ods_segment.rs`) -/

inductive PgsOdsSequenceFlag where
  | Unknown
  | First
  | Last
  | Both
  deriving DecidableEq, Repr

/-- `From<u8> for PgsOdsSequenceFlag`: `0x40/0x80/0xC0`, else `Unknown`. -/
def PgsOdsSequenceFlag.fromByte (value : ℕ) : PgsOdsSequenceFlag :=
  if value = 0x40 then .Last
  else if value = 0x80 then .First
  else if value = 0xC0 then .Both
  else .Unknown

structure PgsOdsSegment where
  header : PgsSegmentHeader
  object_id : ℕ
  object_version_number : ℕ
  last_in_sequence_flag : PgsOdsSequenceFlag
  object_data_length : ℕ
  width : ℕ
  height : ℕ
  object_data : List ℕ
  deriving DecidableEq, Repr

/-! ### Palette lookup (`src/pgs_decode_rle.rs`) -/

/-- `get_gray_color`: white for an out-of-bounds index, else `calc_gray` of the entry. -/
def get_gray_color (color : ℕ) (pds : PgsPdsSegment) : ℕ :=
  if pds.palette_entries.length ≤ color then 0xFFFFFF
  else
    let e := pds.palette_entries.getD color ⟨0, 0, 0, 0, 0⟩
    calc_gray e.transparency e.luminance

/-- `get_argb_color`: white for an out-of-bounds index, else `get_argb` of the entry
(the source passes `luminance, color_difference_blue, color_difference_red, transparency`). -/
def get_argb_color (color : ℕ) (pds : PgsPdsSegment) : ℕ :=
  if pds.palette_entries.length ≤ color then 0xFFFFFF
  else
    let e := pds.palette_entries.getD color ⟨0, 0, 0, 0, 0⟩
    get_argb e.luminance e.color_difference_blue e.color_difference_red e.transparency

/-- `get_pixel_color`: grayscale or ARGB lookup according to the `gray` flag. -/
def get_pixel_color (color : ℕ) (pds : PgsPdsSegment) (gray : Bool) : ℕ :=
  if gray then get_gray_color color pds else get_argb_color color pds

/-! ### RLE decoding (`src/pgs_decode_rle.rs`)

The Rust loop writes `pixels[row][col]` with unchecked `Vec` indexing: an
out-of-range index panics and no matrix is returned.  `setPix` makes that
bounds check explicit, and the loop turns a failed write into
`PgsError.IndexOutOfBounds`. -/

/-- Write `v` at `pixels[row][col]`; `none` models the Rust indexing panic. -/
def setPix (pixels : List (List ℕ)) (row col v : ℕ) : Option (List (List ℕ)) :=
  match pixels[row]? with
  | none => none
  | some r => if col < r.length then some (pixels.set row (r.set col v)) else none

/-- Emit a run of `n` pixels of palette index `color`, advancing the column;
returns the updated matrix and column, or `none` on an out-of-bounds write. -/
def emitRun (pds : PgsPdsSegment) (gray : Bool) (color : ℕ) :
    List (List ℕ) → ℕ → ℕ → ℕ → Option (List (List ℕ) × ℕ)
  | pixels, _, col, 0 => some (pixels, col)
  | pixels, row, col, n + 1 =>
    match setPix pixels row col (get_pixel_color color pds gray) with
    | none => none
    | some p => emitRun pds gray color p row (col + 1) n

/-- The `while` loop of `decode_rle`, reading the payload byte list in order.
Cases mirror the source: a nonzero byte emits one pixel; `0x00 0x00` moves to
the next row; `0x00 D` dispatches on the top two bits of `D` for the four run
encodings (the final branch is the source's empty `_ => {}` arm); a missing
extension byte is the source's failed `read_u8` (`File`).  The loop consumes
at least one byte per iteration, so running it with fuel `data.length` — as
`decode_rle` does — is exact: the fuel only bounds the iteration count and
never runs out before the payload. -/
def decode_loop (pds : PgsPdsSegment) (gray : Bool) :
    ℕ → List ℕ → List (List ℕ) → ℕ → ℕ → Except PgsError (List (List ℕ))
  | 0, _, pixels, _, _ => .ok pixels
  | fuel + 1, data, pixels, row, col =>
    match data with
    | [] => .ok pixels
    | b :: rest =>
      if b = 0 then
        match rest with
        | [] => .error .File
        | d :: rest2 =>
          if d = 0 then decode_loop pds gray fuel rest2 pixels (row + 1) 0
          else if (d &&& 0xC0) >>> 6 = 0 then
            match emitRun pds gray 0 pixels row col (byte_to_int d) with
            | none => .error .RuntimeFault
            | some (p, c) => decode_loop pds gray fuel rest2 p row c
          else if (d &&& 0xC0) >>> 6 = 1 then
            match rest2 with
            | [] => .error .File
            | l :: rest3 =>
              match emitRun pds gray 0 pixels row col
                  (byte_to_int l ||| (byte_to_int (d &&& 0x3F) <<< 8)) with
              | none => .error .RuntimeFault
              | some (p, c) => decode_loop pds gray fuel rest3 p row c
          else if (d &&& 0xC0) >>> 6 = 2 then
            match rest2 with
            | [] => .error .File
            | c0 :: rest3 =>
              match emitRun pds gray (byte_to_int c0) pixels row col
                  (byte_to_int (d &&& 0x3F)) with
              | none => .error .RuntimeFault
              | some (p, c) => decode_loop pds gray fuel rest3 p row c
          else if (d &&& 0xC0) >>> 6 = 3 then
            match rest2 with
            | l :: c0 :: rest3 =>
              match emitRun pds gray (byte_to_int c0) pixels row col
                  (byte_to_int l ||| (byte_to_int (d &&& 0x3F) <<< 8)) with
              | none => .error .RuntimeFault
              | some (p, c) => decode_loop pds gray fuel rest3 p row c
            | _ => .error .File
          else decode_loop pds gray fuel rest2 pixels row col
      else
        match setPix pixels row col (get_pixel_color (byte_to_int b) pds gray) with
        | none => .error .RuntimeFault
        | some p => decode_loop pds gray fuel rest p row (col + 1)

/-- `decode_rle`: decode an ODS payload into a `height × width` matrix of
pixel colours, starting from an all-zero matrix and cursor `(0, 0)`. -/
def decode_rle (pds : PgsPdsSegment) (ods : PgsOdsSegment) (gray : Bool) :
    Except PgsError (List (List ℕ)) :=
  decode_loop pds gray ods.object_data.length ods.object_data
    (List.replicate ods.height (List.replicate ods.width 0)) 0 0

/-! ### Big-endian integer assembly (`src/pgs_memory_buffer.rs`)

`u16/u24/u32::from_be_bytes` on genuine byte values (< 256). -/

def be16 (b0 b1 : ℕ) : ℕ := 256 * b0 + b1

def be24 (b0 b1 b2 : ℕ) : ℕ := 65536 * b0 + 256 * b1 + b2

def be32 (b0 b1 b2 b3 : ℕ) : ℕ := 16777216 * b0 + 65536 * b1 + 256 * b2 + b3

/-! ### Header parsing (`src/pgs_segment_header.rs`) -/

/-- Modelled from the spec: the magic constant `PG` is declared in
`src/pgs_const.rs`, a file absent from the available sources; the spec fixes
the leading 16 bits of every segment as `0x5047` ("PG"). -/
def PG : ℕ := 0x5047

def PGS_SEGMENT_HEADER_LENGTH : ℕ := 13

/-- `PgsSegmentHeader::from_data`: length check, magic check, then the
big-endian fields (PTS, DTS, type byte, body length).  The final catch-all
can never fire once the length check has passed. -/
def PgsSegmentHeader.from_data (data : List ℕ) : Except PgsError PgsSegmentHeader :=
  if data.length < PGS_SEGMENT_HEADER_LENGTH then .error .InvalidSegmentDataLength
  else
    match data with
    | m0 :: m1 :: p0 :: p1 :: p2 :: p3 :: d0 :: d1 :: d2 :: d3 :: t :: s0 :: s1 :: _ =>
      if be16 m0 m1 ≠ PG then .error .ReadInvalidSegment
      else .ok ⟨PgsSegmentType.fromByte t, be16 s0 s1, be32 p0 p1 p2 p3, be32 d0 d1 d2 d3⟩
    | _ => .error .File

/-! ### PDS parsing (`src/pgs_pds_segment.rs`) -/

/-- The entry count `(palette_buf.len() as u32 - 2) / 5` computed by
`PgsPdsSegment::from_data`, with the `u32` cast and the wrapping subtraction
made explicit. -/
def pdsPaletteCount (remaining : ℕ) : ℕ :=
  ((remaining % 2 ^ 32 + (2 ^ 32 - 2)) % 2 ^ 32) / 5

/-- Read `count` palette entries, five bytes each, in source order
(id, Y, Cr, Cb, α); a missing byte is the source's failed `read_u8`. -/
def readPaletteEntries : ℕ → List ℕ → Except PgsError (List PgsPdsSegmentPaletteEntry)
  | 0, _ => .ok []
  | n + 1, i :: y :: cr :: cb :: t :: rest =>
    (readPaletteEntries n rest).map (fun es => ⟨i, y, cr, cb, t⟩ :: es)
  | _ + 1, _ => .error .File

/-- `PgsPdsSegment::from_data`: length check, palette id and version bytes,
then the wrapped count formula over the remaining bytes and that many
five-byte entries. -/
def PgsPdsSegment.from_data (header : PgsSegmentHeader) (data : List ℕ) :
    Except PgsError PgsPdsSegment :=
  if data.length < header.segment_length then .error .InvalidSegmentDataLength
  else
    match data with
    | palette_id :: palette_version :: palette_buf =>
      (readPaletteEntries (pdsPaletteCount palette_buf.length) palette_buf).map
        (fun entries => ⟨header, palette_id, palette_version, entries⟩)
    | _ => .error .File

/-! ### ODS parsing (`src/pgs_ods_segment.rs`) -/

/-- Final stage of `PgsOdsSegment::from_data`: `read_into_vec` captures
exactly `object_data_length` payload bytes, failing with the end-of-data
error when fewer remain. -/
def ods_read_body (header : PgsSegmentHeader) (object_id version : ℕ)
    (flag : PgsOdsSequenceFlag) (object_data_length width height : ℕ)
    (bytes : List ℕ) : Except PgsError PgsOdsSegment :=
  if object_data_length ≤ bytes.length then
    .ok ⟨header, object_id, version, flag, object_data_length, width, height,
         bytes.take object_data_length⟩
  else .error .File

/-- Width/height stage of `PgsOdsSegment::from_data`: the two 16-bit fields
are read only when the sequence flag is `First` or `Both`, otherwise both
stay 0. -/
def ods_read_dims (header : PgsSegmentHeader) (object_id version : ℕ)
    (flag : PgsOdsSequenceFlag) (object_data_length : ℕ) (rest : List ℕ) :
    Except PgsError PgsOdsSegment :=
  if flag = .First ∨ flag = .Both then
    match rest with
    | w0 :: w1 :: h0 :: h1 :: rest2 =>
      ods_read_body header object_id version flag object_data_length
        (be16 w0 w1) (be16 h0 h1) rest2
    | _ => .error .File
  else ods_read_body header object_id version flag object_data_length 0 0 rest

/-- `PgsOdsSegment::from_data`: length check; object id, version and
sequence-flag bytes; the declared 24-bit length reduced by 4 with `u32`
wrapping (`read_u24 - 4`); then the width/height and payload stages. -/
def PgsOdsSegment.from_data (header : PgsSegmentHeader) (data : List ℕ) :
    Except PgsError PgsOdsSegment :=
  if data.length < header.segment_length then .error .InvalidSegmentDataLength
  else
    match data with
    | b0 :: b1 :: v :: f :: l0 :: l1 :: l2 :: rest =>
      ods_read_dims header (be16 b0 b1) v (PgsOdsSequenceFlag.fromByte f)
        ((be24 l0 l1 l2 % 2 ^ 32 + (2 ^ 32 - 4)) % 2 ^ 32) rest
    | _ => .error .File

/-! ### PCS parsing (`src/pgs_pcs_segment.rs`) -/

inductive PgsPcsObjectCroppedFlag where
  | ForceCroppedImage
  | Off
  deriving DecidableEq, Repr

/-- `From<u8> for PgsPcsObjectCroppedFlag`: `0x40`, else `Off`. -/
def PgsPcsObjectCroppedFlag.fromByte (value : ℕ) : PgsPcsObjectCroppedFlag :=
  if value = 0x40 then .ForceCroppedImage else .Off

inductive PgsPcsCompositionState where
  | EpochStart
  | AcquisitionPoint
  | Normal
  deriving DecidableEq, Repr

/-- `From<u8> for PgsPcsCompositionState`: `0x80`/`0x40`, else `Normal`. -/
def PgsPcsCompositionState.fromByte (value : ℕ) : PgsPcsCompositionState :=
  if value = 0x80 then .EpochStart
  else if value = 0x40 then .AcquisitionPoint
  else .Normal

structure PgsPcsSegmentCompositionObjects where
  object_id : ℕ
  window_id : ℕ
  object_cropped_flag : PgsPcsObjectCroppedFlag
  object_horizontal_position : ℕ
  object_vertical_position : ℕ
  object_cropping_horizontal_position : ℕ
  object_cropping_vertical_position : ℕ
  object_cropping_width : ℕ
  object_cropping_height_position : ℕ
  deriving DecidableEq, Repr

structure PgsPcsSegment where
  header : PgsSegmentHeader
  width : ℕ
  height : ℕ
  frame_rate : ℕ
  composition_number : ℕ
  composition_state : PgsPcsCompositionState
  palette_update_flag : ℕ
  palette_id : ℕ
  number_of_composition_objects : ℕ
  composition_objects : List PgsPcsSegmentCompositionObjects
  deriving DecidableEq, Repr

/-- Read `n` composition objects; the four cropping fields are read only when
the cropped flag byte decodes to `ForceCroppedImage`, otherwise they keep the
zero defaults of `PgsPcsSegmentCompositionObjects::new`. -/
def readCompositionObjects :
    ℕ → List ℕ → Except PgsError (List PgsPcsSegmentCompositionObjects)
  | 0, _ => .ok []
  | n + 1, o0 :: o1 :: w :: cf :: h0 :: h1 :: v0 :: v1 :: rest =>
    let flag := PgsPcsObjectCroppedFlag.fromByte cf
    if flag = .ForceCroppedImage then
      match rest with
      | x0 :: x1 :: y0 :: y1 :: cw0 :: cw1 :: ch0 :: ch1 :: rest2 =>
        (readCompositionObjects n rest2).map
          (fun os => ⟨be16 o0 o1, w, flag, be16 h0 h1, be16 v0 v1,
            be16 x0 x1, be16 y0 y1, be16 cw0 cw1, be16 ch0 ch1⟩ :: os)
      | _ => .error .File
    else
      (readCompositionObjects n rest).map
        (fun os => ⟨be16 o0 o1, w, flag, be16 h0 h1, be16 v0 v1, 0, 0, 0, 0⟩ :: os)
  | _ + 1, _ => .error .File

/-- `PgsPcsSegment::from_data`: length check and the fixed 11-byte prefix,
then the composition objects.  The frame-rate byte is read and discarded by
the source (`let _ = buffer.read_u8()?`), so the field keeps the default
`0x10` set in `PgsPcsSegment::new`. -/
def PgsPcsSegment.from_data (header : PgsSegmentHeader) (data : List ℕ) :
    Except PgsError PgsPcsSegment :=
  if data.length < header.segment_length then .error .InvalidSegmentDataLength
  else
    match data with
    | w0 :: w1 :: h0 :: h1 :: _fr :: c0 :: c1 :: cs :: pf :: pid :: n :: rest =>
      (readCompositionObjects n rest).map
        (fun objs => ⟨header, be16 w0 w1, be16 h0 h1, 0x10, be16 c0 c1,
          PgsPcsCompositionState.fromByte cs, pf, pid, n, objs⟩)
    | _ => .error .File

/-! ### WDS parsing (`src/pgs_wds_segment.rs`) -/

structure PgsWdsSegmentWindowDefinition where
  window_id : ℕ
  window_horizontal_position : ℕ
  window_vertical_position : ℕ
  window_width : ℕ
  window_height : ℕ
  deriving DecidableEq, Repr

structure PgsWdsSegment where
  header : PgsSegmentHeader
  number_of_windows : ℕ
  windows : List PgsWdsSegmentWindowDefinition
  deriving DecidableEq, Repr

/-- Read `n` nine-byte window definitions. -/
def readWindows : ℕ → List ℕ → Except PgsError (List PgsWdsSegmentWindowDefinition)
  | 0, _ => .ok []
  | n + 1, i :: x0 :: x1 :: y0 :: y1 :: ww0 :: ww1 :: wh0 :: wh1 :: rest =>
    (readWindows n rest).map
      (fun ws => ⟨i, be16 x0 x1, be16 y0 y1, be16 ww0 ww1, be16 wh0 wh1⟩ :: ws)
  | _ + 1, _ => .error .File

/-- `PgsWdsSegment::from_data`: length check, window count byte, then that
many window definitions. -/
def PgsWdsSegment.from_data (header : PgsSegmentHeader) (data : List ℕ) :
    Except PgsError PgsWdsSegment :=
  if data.length < header.segment_length then .error .InvalidSegmentDataLength
  else
    match data with
    | n :: rest =>
      (readWindows n rest).map (fun ws => ⟨header, n, ws⟩)
    | _ => .error .File

/-! ### Typed segments and the stream parser (`src/pgs_segment.rs`, `src/pgs_parser.rs`) -/

inductive PgsSegment where
  | Pcs (pcs : PgsPcsSegment)
  | Wds (wds : PgsWdsSegment)
  | Pds (pds : PgsPdsSegment)
  | Ods (ods : PgsOdsSegment)
  | End
  deriving DecidableEq, Repr

/-- `PgsParser::read_segment` on the remaining stream: take 13 header bytes
(a short stream is `PgsFile`'s end-of-file error), parse the header, reject
type `ERR`, return `End` bodiless, else take `segment_length` body bytes and
dispatch to the body parser; returns the parsed segment and the rest of the
stream.  The final catch-all mirrors the source's `_ => PgsSegment::End`. -/
def read_segment (stream : List ℕ) : Except PgsError (PgsSegment × List ℕ) :=
  if stream.length < 13 then .error .File
  else
    match PgsSegmentHeader.from_data (stream.take 13) with
    | .error e => .error e
    | .ok header =>
      if header.segment_type = .ERR then .error .ReadInvalidSegment
      else if header.segment_type = .END then .ok (.End, stream.drop 13)
      else
        let rest := stream.drop 13
        if rest.length < header.segment_length then .error .File
        else
          let body := rest.take header.segment_length
          let rest2 := rest.drop header.segment_length
          match header.segment_type with
          | .PCS => (PgsPcsSegment.from_data header body).map (fun s => (.Pcs s, rest2))
          | .WDS => (PgsWdsSegment.from_data header body).map (fun s => (.Wds s, rest2))
          | .PDS => (PgsPdsSegment.from_data header body).map (fun s => (.Pds s, rest2))
          | .ODS => (PgsOdsSegment.from_data header body).map (fun s => (.Ods s, rest2))
          | _ => .ok (.End, rest2)

/-! ### Display sets (`src/pgs_display_set.rs`) -/

inductive PgsDisplaySetState where
  | Incomplete
  | Complete
  | EmptyFrame
  deriving DecidableEq, Repr

structure PgsDisplaySet where
  pcs : Option PgsPcsSegment
  wds : Option PgsWdsSegment
  pds : Option PgsPdsSegment
  ods : Option PgsOdsSegment
  deriving DecidableEq, Repr

/-- `PgsDisplaySet::new`: all four slots empty. -/
def PgsDisplaySet.new : PgsDisplaySet := ⟨none, none, none, none⟩

/-- `PgsDisplaySet::state`: `Complete` when all four segments are present,
`EmptyFrame` when only PCS and WDS are, `Incomplete` otherwise. -/
def PgsDisplaySet.state (ds : PgsDisplaySet) : PgsDisplaySetState :=
  if ds.pcs.isSome && ds.wds.isSome then
    if ds.pds.isSome && ds.ods.isSome then .Complete else .EmptyFrame
  else .Incomplete

/-- `PgsDisplaySet::get_rle_image`: the raw ODS payload, or
`IncompleteDisplaySet` when the state is not `Complete`.  The `RuntimeFault`
branch models the source's `unwrap()` and is unreachable when the state is
`Complete`. -/
def PgsDisplaySet.get_rle_image (ds : PgsDisplaySet) : Except PgsError (List ℕ) :=
  if ds.state ≠ .Complete then .error .IncompleteDisplaySet
  else
    match ds.ods with
    | some o => .ok o.object_data
    | none => .error .RuntimeFault

/-- `PgsDisplaySet::get_decoded_image`: decode the ODS payload with the PDS
palette, or `IncompleteDisplaySet` when the state is not `Complete`. -/
def PgsDisplaySet.get_decoded_image (ds : PgsDisplaySet) (gray : Bool) :
    Except PgsError (List (List ℕ)) :=
  if ds.state ≠ .Complete then .error .IncompleteDisplaySet
  else
    match ds.ods, ds.pds with
    | some o, some p => decode_rle p o gray
    | _, _ => .error .RuntimeFault

/-! ### Display-set assembly (`src/pgs_parser.rs`, `create_display_sets`) -/

/-- The fold body of `PgsParser::create_display_sets`: each non-END segment
overwrites its slot in the accumulator; on END the accumulator is cloned onto
the output and cleaned. -/
def create_display_sets_go : List PgsSegment → PgsDisplaySet → List PgsDisplaySet
  | [], _ => []
  | .Pcs p :: rest, ds => create_display_sets_go rest { ds with pcs := some p }
  | .Wds w :: rest, ds => create_display_sets_go rest { ds with wds := some w }
  | .Ods o :: rest, ds => create_display_sets_go rest { ds with ods := some o }
  | .Pds p :: rest, ds => create_display_sets_go rest { ds with pds := some p }
  | .End :: rest, ds => ds :: create_display_sets_go rest PgsDisplaySet.new

/-- `PgsParser::create_display_sets` over a parsed segment list. -/
def create_display_sets (segments : List PgsSegment) : List PgsDisplaySet :=
  create_display_sets_go segments PgsDisplaySet.new

/-! ### Specification-side view of the assembler, for the refinement claim -/

/-- One segment applied to a display-set accumulator (slot overwrite;
`End` does not touch the slots). -/
def applySegment (ds : PgsDisplaySet) : PgsSegment → PgsDisplaySet
  | .Pcs p => { ds with pcs := some p }
  | .Wds w => { ds with wds := some w }
  | .Ods o => { ds with ods := some o }
  | .Pds p => { ds with pds := some p }
  | .End => ds

def PgsSegment.isEnd : PgsSegment → Bool
  | .End => true
  | _ => false

/-- Split a segment list into the maximal END-terminated groups, dropping the
trailing segments after the last END. -/
def endGroupsGo : List PgsSegment → List PgsSegment → List (List PgsSegment)
  | _, [] => []
  | cur, .End :: rest => cur.reverse :: endGroupsGo [] rest
  | cur, .Pcs p :: rest => endGroupsGo (.Pcs p :: cur) rest
  | cur, .Wds w :: rest => endGroupsGo (.Wds w :: cur) rest
  | cur, .Ods o :: rest => endGroupsGo (.Ods o :: cur) rest
  | cur, .Pds p :: rest => endGroupsGo (.Pds p :: cur) rest

def endGroups (segments : List PgsSegment) : List (List PgsSegment) :=
  endGroupsGo [] segments

/-! ### Over-long runs -/

/-- A run of `n` pixels started at `(row, col)` leaves the matrix: it is
nonempty and either the row index is out of range or the run reaches at or
past the end of the row. -/
def overRun (pixels : List (List ℕ)) (row col n : ℕ) : Prop :=
  0 < n ∧ (pixels.length ≤ row ∨ (pixels.getD row []).length < col + n)

instance (pixels : List (List ℕ)) (row col n : ℕ) :
    Decidable (overRun pixels row col n) := by
  unfold overRun
  infer_instance

/-! ### Concrete fixtures used by individual claims -/

/-- S4 palette: two entries `{Y=50, Cb=100, Cr=100, α=0}` and
`{Y=150, Cb=200, Cr=200, α=0}` (fields in source order id, Y, Cr, Cb, α). -/
def pdsS4 : PgsPdsSegment :=
  ⟨⟨.PDS, 13, 0, 0⟩, 0, 0, [⟨0, 50, 100, 100, 0⟩, ⟨0, 150, 200, 200, 0⟩]⟩

/-- S4 object: width 5, height 2, payload `00 00 01 02 01 03 02`. -/
def odsS4 : PgsOdsSegment :=
  ⟨⟨.ODS, 13, 0, 0⟩, 0, 0, .Unknown, 0, 5, 2, [0x00, 0x00, 0x01, 0x02, 0x01, 0x03, 0x02]⟩

def hdrC2 : PgsSegmentHeader := ⟨.PDS, 5, 0, 0⟩

def hdrC2w : PgsSegmentHeader := ⟨.PDS, 9, 0, 0⟩

def dataC2w : List ℕ := [7, 1, 5, 6, 7, 8, 9, 1, 2]

def hdrC10w : PgsSegmentHeader := ⟨.PDS, 2, 0, 0⟩

def pcsW5 : PgsPcsSegment := ⟨⟨.PCS, 11, 0, 0⟩, 0, 0, 0x10, 0, .Normal, 0, 0, 0, []⟩

def wdsW5 : PgsWdsSegment := ⟨⟨.WDS, 1, 0, 0⟩, 0, []⟩

def pdsW5 : PgsPdsSegment := ⟨⟨.PDS, 2, 0, 0⟩, 0, 0, []⟩

def odsW5 : PgsOdsSegment := ⟨⟨.ODS, 7, 0, 0⟩, 0, 0, .Unknown, 0, 0, 0, []⟩

def dsW5 : PgsDisplaySet := ⟨some pcsW5, some wdsW5, some pdsW5, some odsW5⟩

def hdrC6w : PgsSegmentHeader := ⟨.ODS, 15, 0, 0⟩

def dataC6w : List ℕ :=
  [0, 1, 0, 0x80, 0, 0, 8, 0, 2, 0, 3, 9, 9, 9, 9]

def pdsW7 : PgsPdsSegment := ⟨⟨.PDS, 7, 0, 0⟩, 0, 0, [⟨0, 50, 100, 100, 0⟩]⟩

def dataC8w : List ℕ := [0x50, 0x47, 0, 0, 0, 0, 0, 0, 0, 0, 0x99, 0, 0]

def pdsW9 : PgsPdsSegment := ⟨⟨.PDS, 2, 0, 0⟩, 0, 0, []⟩

/-- Width 2, height 1, payload `00 03`: a run of three background pixels into
a two-pixel row. -/
def odsW9 : PgsOdsSegment := ⟨⟨.ODS, 9, 0, 0⟩, 0, 0, .Unknown, 0, 2, 1, [0x00, 0x03]⟩

deriving instance DecidableEq for Except

/-! ## Theorems -/

/-- Inversion for `Except.map` hitting `ok`. -/
theorem except_map_eq_ok {α β γ : Type} (f : α → β) (x : Except γ α) (y : β) :
    x.map f = .ok y ↔ ∃ a, x = .ok a ∧ f a = y := by
  cases x <;> simp [Except.map, eq_comm]

/-- Inversion for `Except.map` hitting `error`. -/
theorem except_map_eq_error {α β γ : Type} (f : α → β) (x : Except γ α) (e : γ) :
    x.map f = .error e ↔ x = .error e := by
  cases x <;> simp [Except.map]

/-- A successful `readPaletteEntries` returns exactly the requested number of
entries. -/
theorem readPaletteEntries_length (n : ℕ) (buf : List ℕ)
    (es : List PgsPdsSegmentPaletteEntry)
    (h : readPaletteEntries n buf = .ok es) : es.length = n := by
  induction n generalizing buf es with
  | zero =>
    simp only [readPaletteEntries, Except.ok.injEq] at h
    simp [← h]
  | succ n ih =>
    rcases buf with _ | ⟨i, _ | ⟨y, _ | ⟨cr, _ | ⟨cb, _ | ⟨t, rest⟩⟩⟩⟩⟩ <;>
      simp only [readPaletteEntries] at h
    · exact absurd h (by simp)
    · exact absurd h (by simp)
    · exact absurd h (by simp)
    · exact absurd h (by simp)
    · exact absurd h (by simp)
    · rw [except_map_eq_ok] at h
      obtain ⟨a, ha, hf⟩ := h
      rw [← hf]
      simp [ih rest a ha]

/-- C1: decoding the RLE payload `00 00 01 02 01 03 02` in ARGB mode with ODS
width 5, height 2 and the two-entry S4 palette yields the 2×5 matrix whose
row 0 is all zeros (the leading `00 00` advances the cursor to row 1 before
any pixel is emitted) and whose row 1 is
`[0x00FA49FF, 0x00FFFFFF, 0x00FA49FF, 0x00FFFFFF, 0x00FFFFFF]`
(indices 2 and 3 exceed the palette length and yield white). -/
theorem C1_rle_decode_s4 :
    decode_rle pdsS4 odsS4 false =
      .ok [[0, 0, 0, 0, 0],
           [0x00FA49FF, 0x00FFFFFF, 0x00FA49FF, 0x00FFFFFF, 0x00FFFFFF]] := rfl

/-- C3 counterexample: at luminance 0, full transparency yields white, not
black, refuting "calc_gray(255, Y) = 0x000000 for every Y". -/
theorem C3_counterexample :
    calc_gray 255 0 = 0xFFFFFF ∧ calc_gray 255 0 ≠ 0x000000 := by decide

/-- C3 (amended): for every luminance byte Y, `calc_gray 255 Y` replicates
`255 - Y` over the three channels, so full transparency yields black exactly
when the luminance is 255, not for every Y. -/
theorem C3_calc_gray_full_transparency (y : ℕ) (h : y ≤ 255) :
    calc_gray 255 y = (255 - y) ||| ((255 - y) <<< 8) ||| ((255 - y) <<< 16) ∧
    (calc_gray 255 y = 0x000000 ↔ y = 255) := by
  have h255 : 255 * y / 255 = y := Nat.mul_div_cancel_left y (by norm_num)
  constructor
  · simp [calc_gray, h255]
  · interval_cases y <;> decide

/-- C3 witness: the amended theorem applied at Y = 3. -/
theorem C3_witness :
    (3 : ℕ) ≤ 255 ∧
      (calc_gray 255 3 = 252 ||| (252 <<< 8) ||| (252 <<< 16) ∧
        (calc_gray 255 3 = 0x000000 ↔ (3 : ℕ) = 255)) :=
  ⟨by norm_num, C3_calc_gray_full_transparency 3 (by norm_num)⟩

/-- Definitional shape of `PgsPdsSegment.from_data` on a body with at least
the id and version bytes. -/
theorem pds_from_data_cons (header : PgsSegmentHeader) (pid pver : ℕ) (buf : List ℕ) :
    PgsPdsSegment.from_data header (pid :: pver :: buf) =
      if (pid :: pver :: buf).length < header.segment_length then
        .error .InvalidSegmentDataLength
      else
        (readPaletteEntries (pdsPaletteCount buf.length) buf).map
          (fun entries => ⟨header, pid, pver, entries⟩) := rfl

/-- Definitional shape of `PgsPdsSegment.from_data` on the empty body. -/
theorem pds_from_data_nil (header : PgsSegmentHeader) :
    PgsPdsSegment.from_data header [] =
      if ([] : List ℕ).length < header.segment_length then
        .error .InvalidSegmentDataLength
      else .error .File := rfl

/-- Definitional shape of `PgsPdsSegment.from_data` on a one-byte body. -/
theorem pds_from_data_one (header : PgsSegmentHeader) (pid : ℕ) :
    PgsPdsSegment.from_data header [pid] =
      if ([pid] : List ℕ).length < header.segment_length then
        .error .InvalidSegmentDataLength
      else .error .File := rfl

/-- C2 counterexample: a PDS body with three bytes left after palette id and
version parses successfully with zero entries, and `0 × 5 + 2 = 2 ≠ 3`:
the inherited equality fails on remaining lengths not congruent to
2 modulo 5. -/
theorem C2_counterexample :
    PgsPdsSegment.from_data hdrC2 [0, 0, 1, 2, 3] = .ok ⟨hdrC2, 0, 0, []⟩ ∧
    ([0, 0, 1, 2, 3] : List ℕ).length - 2 = 3 ∧
    (0 : ℕ) * 5 + 2 ≠ 3 := ⟨rfl, rfl, by norm_num⟩

/-- C2 (amended): for every successfully parsed PDS, the entry count is the
floor `(remaining - 2) / 5` (with the source's `u32` cast and wrapping
subtraction), so `count × 5 + 2 ≤ remaining < count × 5 + 7`, and
`count × 5 + 2 = remaining` holds exactly when `remaining ≡ 2 (mod 5)` —
not for every remaining length a successful parse accepts. -/
theorem C2_pds_entry_count (header : PgsSegmentHeader) (data : List ℕ)
    (seg : PgsPdsSegment)
    (h : PgsPdsSegment.from_data header data = .ok seg) :
    seg.palette_entries.length = pdsPaletteCount (data.length - 2) ∧
    (4 ≤ data.length → data.length < 2 ^ 32 →
      seg.palette_entries.length * 5 + 2 ≤ data.length - 2 ∧
      data.length - 2 < seg.palette_entries.length * 5 + 7 ∧
      (seg.palette_entries.length * 5 + 2 = data.length - 2 ↔
        (data.length - 2) % 5 = 2)) := by
  rcases data with _ | ⟨pid, _ | ⟨pver, buf⟩⟩
  · rw [pds_from_data_nil] at h
    split at h <;> exact absurd h (by simp)
  · rw [pds_from_data_one] at h
    split at h <;> exact absurd h (by simp)
  · rw [pds_from_data_cons] at h
    split at h
    · exact absurd h (by simp)
    · rw [except_map_eq_ok] at h
      obtain ⟨entries, hrec, hseg⟩ := h
      have hlen : seg.palette_entries.length = pdsPaletteCount buf.length := by
        rw [← hseg]
        exact readPaletteEntries_length _ _ _ hrec
      have hbuf : (pid :: pver :: buf).length - 2 = buf.length := by simp
      rw [hbuf, hlen]
      refine ⟨rfl, ?_⟩
      intro h4 hlt
      have hr2 : 2 ≤ buf.length := by simp at h4; omega
      have hr32 : buf.length < 2 ^ 32 := by simp at hlt; omega
      have e32 : (2 : ℕ) ^ 32 = 4294967296 := by norm_num
      simp only [pdsPaletteCount, e32] at hr32 ⊢
      omega

/-- C2 witness: the amended count law at a nine-byte PDS body with one
palette entry (remaining length 7 ≡ 2 mod 5, so the equality holds there). -/
theorem C2_witness :
    PgsPdsSegment.from_data hdrC2w dataC2w = .ok ⟨hdrC2w, 7, 1, [⟨5, 6, 7, 8, 9⟩]⟩ ∧
    (1 * 5 + 2 ≤ dataC2w.length - 2 ∧ dataC2w.length - 2 < 1 * 5 + 7 ∧
      (1 * 5 + 2 = dataC2w.length - 2 ↔ (dataC2w.length - 2) % 5 = 2)) := by
  refine ⟨rfl, ?_⟩
  have h := (C2_pds_entry_count hdrC2w dataC2w ⟨hdrC2w, 7, 1, [⟨5, 6, 7, 8, 9⟩]⟩ rfl).2
    (by norm_num [dataC2w]) (by norm_num [dataC2w])
  simpa using h

/-- C10: a PDS body that leaves fewer than 2 bytes after the palette id and
version bytes does not produce an empty palette: the `u32` subtraction in
the count formula wraps to roughly 858 million, and the parse fails with the
end-of-data read error on the first missing entry byte. -/
theorem C10_pds_count_underflow (header : PgsSegmentHeader) (data : List ℕ)
    (hlen : header.segment_length ≤ data.length)
    (hshort : data.length = 2 ∨ data.length = 3) :
    858993458 ≤ pdsPaletteCount (data.length - 2) ∧
    pdsPaletteCount (data.length - 2) ≤ 858993459 ∧
    PgsPdsSegment.from_data header data = .error .File := by
  have hnlt : ¬ data.length < header.segment_length := Nat.not_lt.mpr hlen
  rcases data with _ | ⟨a, _ | ⟨b, _ | ⟨c, _ | ⟨d, rest⟩⟩⟩⟩ <;>
    simp only [List.length] at hshort <;> try omega
  · -- data = [a, b]: remaining 0, wrapped count 858993458
    refine ⟨by norm_num [pdsPaletteCount], by norm_num [pdsPaletteCount], ?_⟩
    rw [pds_from_data_cons, if_neg hnlt]
    rw [show readPaletteEntries (pdsPaletteCount ([] : List ℕ).length) [] =
      .error .File from rfl]
    rfl
  · -- data = [a, b, c]: remaining 1, wrapped count 858993459
    refine ⟨by norm_num [pdsPaletteCount], by norm_num [pdsPaletteCount], ?_⟩
    rw [pds_from_data_cons, if_neg hnlt]
    simp only [List.length_cons, List.length_nil]
    rw [show readPaletteEntries (pdsPaletteCount 1) [c] = .error .File from rfl]
    rfl

/-- C10 witness: the underflow theorem at the two-byte body `[0, 0]`. -/
theorem C10_witness :
    hdrC10w.segment_length ≤ ([0, 0] : List ℕ).length ∧
    858993458 ≤ pdsPaletteCount (([0, 0] : List ℕ).length - 2) ∧
    PgsPdsSegment.from_data hdrC10w [0, 0] = .error .File := by
  have h := C10_pds_count_underflow hdrC10w [0, 0] (by norm_num [hdrC10w]) (by norm_num)
  exact ⟨by norm_num [hdrC10w], h.1, h.2.2⟩

/-- Running the decode loop with no fuel returns the matrix unchanged (the
decoder always supplies fuel `data.length`, so this case is never reached
with bytes left). -/
theorem decode_loop_zero (pds : PgsPdsSegment) (gray : Bool) (data : List ℕ)
    (pixels : List (List ℕ)) (row col : ℕ) :
    decode_loop pds gray 0 data pixels row col = .ok pixels := rfl

/-- The loop stops and returns the matrix when the payload is consumed. -/
theorem decode_loop_nil (pds : PgsPdsSegment) (gray : Bool) (fuel : ℕ)
    (pixels : List (List ℕ)) (row col : ℕ) :
    decode_loop pds gray (fuel + 1) [] pixels row col = .ok pixels := rfl

/-- Definitional shape of one iteration of the decode loop on a nonempty
payload. -/
theorem decode_loop_cons (pds : PgsPdsSegment) (gray : Bool) (fuel : ℕ)
    (b : ℕ) (rest : List ℕ) (pixels : List (List ℕ)) (row col : ℕ) :
    decode_loop pds gray (fuel + 1) (b :: rest) pixels row col =
      if b = 0 then
        match rest with
        | [] => .error .File
        | d :: rest2 =>
          if d = 0 then decode_loop pds gray fuel rest2 pixels (row + 1) 0
          else if (d &&& 0xC0) >>> 6 = 0 then
            match emitRun pds gray 0 pixels row col (byte_to_int d) with
            | none => .error .RuntimeFault
            | some (p, c) => decode_loop pds gray fuel rest2 p row c
          else if (d &&& 0xC0) >>> 6 = 1 then
            match rest2 with
            | [] => .error .File
            | l :: rest3 =>
              match emitRun pds gray 0 pixels row col
                  (byte_to_int l ||| (byte_to_int (d &&& 0x3F) <<< 8)) with
              | none => .error .RuntimeFault
              | some (p, c) => decode_loop pds gray fuel rest3 p row c
          else if (d &&& 0xC0) >>> 6 = 2 then
            match rest2 with
            | [] => .error .File
            | c0 :: rest3 =>
              match emitRun pds gray (byte_to_int c0) pixels row col
                  (byte_to_int (d &&& 0x3F)) with
              | none => .error .RuntimeFault
              | some (p, c) => decode_loop pds gray fuel rest3 p row c
          else if (d &&& 0xC0) >>> 6 = 3 then
            match rest2 with
            | l :: c0 :: rest3 =>
              match emitRun pds gray (byte_to_int c0) pixels row col
                  (byte_to_int l ||| (byte_to_int (d &&& 0x3F) <<< 8)) with
              | none => .error .RuntimeFault
              | some (p, c) => decode_loop pds gray fuel rest3 p row c
            | _ => .error .File
          else decode_loop pds gray fuel rest2 pixels row col
      else
        match setPix pixels row col (get_pixel_color (byte_to_int b) pds gray) with
        | none => .error .RuntimeFault
        | some p => decode_loop pds gray fuel rest p row (col + 1) := rfl

/-- Every error the decode loop produces is either the end-of-data read
failure or the out-of-bounds write fault; in particular it never reports
`IncompleteDisplaySet`. -/
theorem decode_loop_error_shape (pds : PgsPdsSegment) (gray : Bool) :
    ∀ (fuel : ℕ) (data : List ℕ) (pixels : List (List ℕ)) (row col : ℕ)
      (e : PgsError),
      decode_loop pds gray fuel data pixels row col = .error e →
      e = .File ∨ e = .RuntimeFault := by
  intro fuel
  induction fuel with
  | zero =>
    intro data pixels row col e h
    rw [decode_loop_zero] at h
    exact absurd h (by simp)
  | succ fuel ih =>
    intro data pixels row col e h
    rcases data with _ | ⟨b, rest⟩
    · rw [decode_loop_nil] at h
      exact absurd h (by simp)
    · rw [decode_loop_cons] at h
      repeat' split at h
      any_goals exact ih _ _ _ _ _ h
      all_goals (simp only [Except.error.injEq] at h; subst h; simp)

/-- The assembler loop refines the group-splitting view: starting from the
fold of any already-consumed group prefix `cur`, the emitted display sets are
exactly the folds of the END-terminated groups of the remaining input. -/
theorem create_display_sets_go_spec (segs : List PgsSegment) :
    ∀ cur : List PgsSegment,
      create_display_sets_go segs (cur.foldl applySegment PgsDisplaySet.new) =
        (endGroupsGo cur.reverse segs).map
          (fun g => g.foldl applySegment PgsDisplaySet.new) := by
  induction segs with
  | nil => intro cur; rfl
  | cons s rest ih =>
    intro cur
    have hstep : ∀ t : PgsSegment,
        applySegment (cur.foldl applySegment PgsDisplaySet.new) t =
          (cur ++ [t]).foldl applySegment PgsDisplaySet.new := by
      intro t
      simp [List.foldl_append]
    have hrev : ∀ t : PgsSegment, (cur ++ [t]).reverse = t :: cur.reverse := by
      intro t
      simp
    cases s with
    | End =>
      show cur.foldl applySegment PgsDisplaySet.new ::
          create_display_sets_go rest PgsDisplaySet.new =
        cur.reverse.reverse.foldl applySegment PgsDisplaySet.new ::
          (endGroupsGo [] rest).map (fun g => g.foldl applySegment PgsDisplaySet.new)
      congr 1
      · simp
      · exact ih []
    | Pcs p =>
      show create_display_sets_go rest
          (applySegment (cur.foldl applySegment PgsDisplaySet.new) (.Pcs p)) =
        (endGroupsGo (.Pcs p :: cur.reverse) rest).map
          (fun g => g.foldl applySegment PgsDisplaySet.new)
      rw [hstep, ih (cur ++ [PgsSegment.Pcs p]), hrev]
    | Wds w =>
      show create_display_sets_go rest
          (applySegment (cur.foldl applySegment PgsDisplaySet.new) (.Wds w)) =
        (endGroupsGo (.Wds w :: cur.reverse) rest).map
          (fun g => g.foldl applySegment PgsDisplaySet.new)
      rw [hstep, ih (cur ++ [PgsSegment.Wds w]), hrev]
    | Pds p =>
      show create_display_sets_go rest
          (applySegment (cur.foldl applySegment PgsDisplaySet.new) (.Pds p)) =
        (endGroupsGo (.Pds p :: cur.reverse) rest).map
          (fun g => g.foldl applySegment PgsDisplaySet.new)
      rw [hstep, ih (cur ++ [PgsSegment.Pds p]), hrev]
    | Ods o =>
      show create_display_sets_go rest
          (applySegment (cur.foldl applySegment PgsDisplaySet.new) (.Ods o)) =
        (endGroupsGo (.Ods o :: cur.reverse) rest).map
          (fun g => g.foldl applySegment PgsDisplaySet.new)
      rw [hstep, ih (cur ++ [PgsSegment.Ods o]), hrev]

/-- There is one END-terminated group per END segment. -/
theorem endGroupsGo_length (segs : List PgsSegment) :
    ∀ acc, (endGroupsGo acc segs).length = segs.countP PgsSegment.isEnd := by
  induction segs with
  | nil => intro acc; rfl
  | cons s rest ih =>
    intro acc
    cases s <;> simp [endGroupsGo, List.countP_cons, PgsSegment.isEnd, ih]

/-- C4: the display-set assembler emits exactly one display set per END
segment, in END order: `create_display_sets` equals the per-group fold of the
END-terminated groups (so each emitted set is the snapshot of the segments of
its own group — latest slot wins — and the accumulator restarts empty after
each END, trailing segments after the last END being discarded), the number
of display sets is the number of END segments, and a sequence with no END
produces zero display sets. -/
theorem C4_display_set_assembly (segments : List PgsSegment) :
    create_display_sets segments =
      (endGroups segments).map (fun g => g.foldl applySegment PgsDisplaySet.new) ∧
    (create_display_sets segments).length = segments.countP PgsSegment.isEnd ∧
    (segments.countP PgsSegment.isEnd = 0 → create_display_sets segments = []) := by
  have h := create_display_sets_go_spec segments []
  have hlen : (create_display_sets segments).length =
      segments.countP PgsSegment.isEnd := by
    rw [create_display_sets]
    rw [show PgsDisplaySet.new =
      (([] : List PgsSegment).foldl applySegment PgsDisplaySet.new) from rfl]
    rw [h, List.length_map]
    exact endGroupsGo_length segments [].reverse
  refine ⟨h, hlen, ?_⟩
  intro h0
  have : (create_display_sets segments).length = 0 := by rw [hlen, h0]
  exact List.length_eq_zero.mp this

/-- C4 witness: an END-free stream (the empty one) produces no display sets. -/
theorem C4_witness :
    ([] : List PgsSegment).countP PgsSegment.isEnd = 0 ∧
      create_display_sets [] = [] :=
  ⟨rfl, (C4_display_set_assembly []).2.2 rfl⟩

/-- A display set is `Complete` exactly when all four segment slots are
filled. -/
theorem state_complete_iff (ds : PgsDisplaySet) :
    ds.state = .Complete ↔
      ds.pcs.isSome ∧ ds.wds.isSome ∧ ds.pds.isSome ∧ ds.ods.isSome := by
  rcases ds with ⟨p, w, pd, o⟩
  cases p <;> cases w <;> cases pd <;> cases o <;> simp [PgsDisplaySet.state]

/-- C5: for every display set, `get_rle_image` and `get_decoded_image`
return the `IncompleteDisplaySet` error exactly when the state is not
`Complete`; when it is `Complete`, `get_rle_image` returns the ODS
`object_data` and `get_decoded_image` returns the decoded matrix of the ODS
and PDS at hand, without that error. -/
theorem C5_image_accessors (ds : PgsDisplaySet) (gray : Bool) :
    (ds.get_rle_image = .error .IncompleteDisplaySet ↔ ds.state ≠ .Complete) ∧
    (ds.get_decoded_image gray = .error .IncompleteDisplaySet ↔
      ds.state ≠ .Complete) ∧
    (ds.state = .Complete →
      ∃ o p, ds.ods = some o ∧ ds.pds = some p ∧
        ds.get_rle_image = .ok o.object_data ∧
        ds.get_decoded_image gray = decode_rle p o gray) := by
  by_cases hst : ds.state = .Complete
  · obtain ⟨hpcs, hwds, hpds, hods⟩ := (state_complete_iff ds).mp hst
    obtain ⟨o, ho⟩ := Option.isSome_iff_exists.mp hods
    obtain ⟨p, hp⟩ := Option.isSome_iff_exists.mp hpds
    have hrle : ds.get_rle_image = .ok o.object_data := by
      rw [PgsDisplaySet.get_rle_image, if_neg (by simp [hst]), ho]
    have hdec : ds.get_decoded_image gray = decode_rle p o gray := by
      rw [PgsDisplaySet.get_decoded_image, if_neg (by simp [hst]), ho, hp]
    have hne : decode_rle p o gray ≠ .error .IncompleteDisplaySet := by
      intro hbad
      rw [decode_rle] at hbad
      rcases decode_loop_error_shape p gray _ _ _ _ _ _ hbad with h | h <;>
        exact absurd h (by simp)
    refine ⟨?_, ?_, fun _ => ⟨o, p, ho, hp, hrle, hdec⟩⟩
    · rw [hrle]
      simp [hst]
    · rw [hdec]
      simp [hst, hne]
  · have hrle : ds.get_rle_image = .error .IncompleteDisplaySet := by
      rw [PgsDisplaySet.get_rle_image, if_pos hst]
    have hdec : ds.get_decoded_image gray = .error .IncompleteDisplaySet := by
      rw [PgsDisplaySet.get_decoded_image, if_pos hst]
    exact ⟨by simp [hrle, hst], by simp [hdec, hst], fun hc => absurd hc hst⟩

/-- C5 witness: the accessor theorem at a concrete complete display set. -/
theorem C5_witness :
    dsW5.state = .Complete ∧
      ∃ o p, dsW5.ods = some o ∧ dsW5.pds = some p ∧
        dsW5.get_rle_image = .ok o.object_data ∧
        dsW5.get_decoded_image false = decode_rle p o false :=
  ⟨rfl, (C5_image_accessors dsW5 false).2.2 rfl⟩

/-- C6: for every successfully parsed ODS (over genuine byte input), if the
sequence flag is `First` or `Both` then width and height are the big-endian
16-bit fields read from body offsets 7–10 and the payload length is the
declared 24-bit length reduced by 4 (`u32`-wrapping, so plainly `N - 4`
whenever `4 ≤ N`); if the flag is `Last` or `Unknown` then width and height
are 0. -/
theorem C6_ods_fields (header : PgsSegmentHeader) (data : List ℕ)
    (seg : PgsOdsSegment)
    (hok : PgsOdsSegment.from_data header data = .ok seg)
    (hbytes : ∀ b ∈ data, b < 256) :
    ((seg.last_in_sequence_flag = .First ∨ seg.last_in_sequence_flag = .Both) →
      seg.width = be16 (data.getD 7 0) (data.getD 8 0) ∧
      seg.height = be16 (data.getD 9 0) (data.getD 10 0) ∧
      seg.object_data.length =
        (be24 (data.getD 4 0) (data.getD 5 0) (data.getD 6 0) + (2 ^ 32 - 4)) %
          2 ^ 32 ∧
      (4 ≤ be24 (data.getD 4 0) (data.getD 5 0) (data.getD 6 0) →
        seg.object_data.length =
          be24 (data.getD 4 0) (data.getD 5 0) (data.getD 6 0) - 4)) ∧
    ((seg.last_in_sequence_flag = .Last ∨ seg.last_in_sequence_flag = .Unknown) →
      seg.width = 0 ∧ seg.height = 0) := by
  unfold PgsOdsSegment.from_data at hok
  split at hok
  · exact absurd hok (by simp)
  split at hok
  · rename_i b0 b1 v f l0 l1 l2 rest hnlt
    unfold ods_read_dims at hok
    split at hok
    · rename_i hflag
      split at hok
      · rename_i w0 w1 h0 h1 rest2
        unfold ods_read_body at hok
        split at hok
        · rename_i hodl
          simp only [Except.ok.injEq] at hok
          subst hok
          rw [show ((b0 :: b1 :: v :: f :: l0 :: l1 :: l2 :: w0 :: w1 :: h0 ::
                h1 :: rest2 : List ℕ).getD 4 0) = l0 from rfl,
              show ((b0 :: b1 :: v :: f :: l0 :: l1 :: l2 :: w0 :: w1 :: h0 ::
                h1 :: rest2 : List ℕ).getD 5 0) = l1 from rfl,
              show ((b0 :: b1 :: v :: f :: l0 :: l1 :: l2 :: w0 :: w1 :: h0 ::
                h1 :: rest2 : List ℕ).getD 6 0) = l2 from rfl,
              show ((b0 :: b1 :: v :: f :: l0 :: l1 :: l2 :: w0 :: w1 :: h0 ::
                h1 :: rest2 : List ℕ).getD 7 0) = w0 from rfl,
              show ((b0 :: b1 :: v :: f :: l0 :: l1 :: l2 :: w0 :: w1 :: h0 ::
                h1 :: rest2 : List ℕ).getD 8 0) = w1 from rfl,
              show ((b0 :: b1 :: v :: f :: l0 :: l1 :: l2 :: w0 :: w1 :: h0 ::
                h1 :: rest2 : List ℕ).getD 9 0) = h0 from rfl,
              show ((b0 :: b1 :: v :: f :: l0 :: l1 :: l2 :: w0 :: w1 :: h0 ::
                h1 :: rest2 : List ℕ).getD 10 0) = h1 from rfl]
          have hlen : (List.take
              ((be24 l0 l1 l2 % 2 ^ 32 + (2 ^ 32 - 4)) % 2 ^ 32) rest2).length =
              (be24 l0 l1 l2 % 2 ^ 32 + (2 ^ 32 - 4)) % 2 ^ 32 := by
            rw [List.length_take]
            exact Nat.min_eq_left hodl
          constructor
          · intro _
            refine ⟨rfl, rfl, ?_, ?_⟩
            · dsimp only
              rw [hlen, Nat.mod_add_mod]
            · intro h4
              dsimp only
              rw [hlen]
              have hb0 : l0 < 256 := hbytes l0 (by simp)
              have hb1 : l1 < 256 := hbytes l1 (by simp)
              have hb2 : l2 < 256 := hbytes l2 (by simp)
              have e32 : (2 : ℕ) ^ 32 = 4294967296 := by norm_num
              simp only [be24, e32] at h4 ⊢
              omega
          · intro hcontra
            rcases hflag with h1 | h1 <;> rcases hcontra with h2 | h2 <;>
              simp_all
        · exact absurd hok (by simp)
      · exact absurd hok (by simp)
    · rename_i hflag
      unfold ods_read_body at hok
      split at hok
      · rename_i hodl
        simp only [Except.ok.injEq] at hok
        subst hok
        constructor
        · intro hcontra
          exact absurd hcontra (by simpa using hflag)
        · intro _
          exact ⟨rfl, rfl⟩
      · exact absurd hok (by simp)
  · exact absurd hok (by simp)

/-- C6 witness: the field theorem at a concrete `First`-flagged ODS body with
declared length 8 (payload 4 bytes after width and height). -/
theorem C6_witness :
    PgsOdsSegment.from_data hdrC6w dataC6w =
      .ok ⟨hdrC6w, 1, 0, .First, 4, 2, 3, [9, 9, 9, 9]⟩ ∧
    ((⟨hdrC6w, 1, 0, .First, 4, 2, 3, [9, 9, 9, 9]⟩ :
        PgsOdsSegment).last_in_sequence_flag = .First ∨
      (⟨hdrC6w, 1, 0, .First, 4, 2, 3, [9, 9, 9, 9]⟩ :
        PgsOdsSegment).last_in_sequence_flag = .Both) ∧
    (⟨hdrC6w, 1, 0, .First, 4, 2, 3, [9, 9, 9, 9]⟩ : PgsOdsSegment).width =
      be16 (dataC6w.getD 7 0) (dataC6w.getD 8 0) ∧
    (⟨hdrC6w, 1, 0, .First, 4, 2, 3, [9, 9, 9, 9]⟩ :
        PgsOdsSegment).object_data.length =
      be24 (dataC6w.getD 4 0) (dataC6w.getD 5 0) (dataC6w.getD 6 0) - 4 := by
  have hok : PgsOdsSegment.from_data hdrC6w dataC6w =
      .ok ⟨hdrC6w, 1, 0, .First, 4, 2, 3, [9, 9, 9, 9]⟩ := rfl
  have h := C6_ods_fields hdrC6w dataC6w _ hok (by decide)
  have h1 := h.1 (Or.inl rfl)
  exact ⟨hok, Or.inl rfl, h1.1, h1.2.2.2 (by decide)⟩

/-- Definitional shape of `PgsSegmentHeader.from_data` on a 13-byte-or-more
input. -/
theorem header_from_data_cons (m0 m1 p0 p1 p2 p3 d0 d1 d2 d3 t s0 s1 : ℕ)
    (rest : List ℕ) :
    PgsSegmentHeader.from_data (m0 :: m1 :: p0 :: p1 :: p2 :: p3 :: d0 :: d1 ::
        d2 :: d3 :: t :: s0 :: s1 :: rest) =
      if (m0 :: m1 :: p0 :: p1 :: p2 :: p3 :: d0 :: d1 :: d2 :: d3 :: t :: s0 ::
          s1 :: rest).length < PGS_SEGMENT_HEADER_LENGTH then
        .error .InvalidSegmentDataLength
      else if be16 m0 m1 ≠ PG then .error .ReadInvalidSegment
      else .ok ⟨PgsSegmentType.fromByte t, be16 s0 s1, be32 p0 p1 p2 p3,
                be32 d0 d1 d2 d3⟩ := rfl

/-- C8: a 13-byte header block fails with `ReadInvalidSegment` exactly when
its leading 16 bits are not `0x5047`; when the magic matches but the type tag
is none of `0x14/0x15/0x16/0x17/0x80`, the header still parses with type
`ERR`, and it is the stream parser's `read_segment` that then returns
`ReadInvalidSegment`. -/
theorem C8_header_magic (data : List ℕ) (hlen : data.length = 13)
    (hbytes : ∀ b ∈ data, b < 256) :
    (PgsSegmentHeader.from_data data = .error .ReadInvalidSegment ↔
      ¬(data.getD 0 0 = 0x50 ∧ data.getD 1 0 = 0x47)) ∧
    ((data.getD 0 0 = 0x50 ∧ data.getD 1 0 = 0x47) →
      data.getD 10 0 ≠ 0x14 → data.getD 10 0 ≠ 0x15 → data.getD 10 0 ≠ 0x16 →
      data.getD 10 0 ≠ 0x17 → data.getD 10 0 ≠ 0x80 →
      ∃ hd, PgsSegmentHeader.from_data data = .ok hd ∧
        hd.segment_type = .ERR ∧
        ∀ rest, read_segment (data ++ rest) = .error .ReadInvalidSegment) := by
  rcases data with _ | ⟨m0, _ | ⟨m1, _ | ⟨p0, _ | ⟨p1, _ | ⟨p2, _ | ⟨p3, _ | ⟨d0, _ | ⟨d1, _ | ⟨d2, _ | ⟨d3, _ | ⟨t, _ | ⟨s0, _ | ⟨s1, tail⟩⟩⟩⟩⟩⟩⟩⟩⟩⟩⟩⟩⟩
  all_goals try (exfalso; simp at hlen; done)
  have htail : tail = [] := by
    cases tail with
    | nil => rfl
    | cons a l => simp at hlen
  subst htail
  have hm0 : m0 < 256 := hbytes m0 (by simp)
  have hm1 : m1 < 256 := hbytes m1 (by simp)
  rw [show ((m0 :: m1 :: p0 :: p1 :: p2 :: p3 :: d0 :: d1 :: d2 :: d3 :: t ::
      s0 :: s1 :: [] : List ℕ) : List ℕ).getD 0 0 = m0 from rfl,
     show ((m0 :: m1 :: p0 :: p1 :: p2 :: p3 :: d0 :: d1 :: d2 :: d3 :: t ::
      s0 :: s1 :: [] : List ℕ) : List ℕ).getD 1 0 = m1 from rfl,
     show ((m0 :: m1 :: p0 :: p1 :: p2 :: p3 :: d0 :: d1 :: d2 :: d3 :: t ::
      s0 :: s1 :: [] : List ℕ) : List ℕ).getD 10 0 = t from rfl]
  rw [header_from_data_cons, if_neg (by simp [PGS_SEGMENT_HEADER_LENGTH])]
  constructor
  · by_cases hpg : be16 m0 m1 = PG
    · rw [if_neg (by simpa using hpg)]
      have hmagic : m0 = 0x50 ∧ m1 = 0x47 := by
        simp only [be16, PG] at hpg
        omega
      simp [hmagic]
    · rw [if_pos hpg]
      have hmagic : ¬(m0 = 0x50 ∧ m1 = 0x47) := by
        intro ⟨h1, h2⟩
        exact hpg (by simp [be16, PG, h1, h2])
      simp [hmagic]
  · intro hmagic ht1 ht2 ht3 ht4 ht5
    have hpg : be16 m0 m1 = PG := by simp [be16, PG, hmagic.1, hmagic.2]
    rw [if_neg (by simpa using hpg)]
    have hty : PgsSegmentType.fromByte t = .ERR := by
      simp [PgsSegmentType.fromByte, ht1, ht2, ht3, ht4, ht5]
    refine ⟨_, rfl, hty, ?_⟩
    intro rest
    unfold read_segment
    rw [if_neg (by simp)]
    rw [show List.take 13 ((m0 :: m1 :: p0 :: p1 :: p2 :: p3 :: d0 :: d1 ::
        d2 :: d3 :: t :: s0 :: s1 :: [] : List ℕ) ++ rest) =
      (m0 :: m1 :: p0 :: p1 :: p2 :: p3 :: d0 :: d1 :: d2 :: d3 :: t :: s0 ::
        s1 :: [] : List ℕ) from rfl]
    rw [header_from_data_cons, if_neg (by simp [PGS_SEGMENT_HEADER_LENGTH]),
      if_neg (by simpa using hpg)]
    dsimp only
    rw [if_pos hty]

/-- C8 witness: the magic/tag theorem at a concrete 13-byte block with good
magic and unknown type tag `0x99`. -/
theorem C8_witness :
    dataC8w.length = 13 ∧
      ∃ hd, PgsSegmentHeader.from_data dataC8w = .ok hd ∧
        hd.segment_type = .ERR ∧
        ∀ rest, read_segment (dataC8w ++ rest) = .error .ReadInvalidSegment :=
  ⟨rfl, (C8_header_magic dataC8w rfl (by decide)).2 ⟨rfl, rfl⟩
    (by decide) (by decide) (by decide) (by decide) (by decide)⟩

/-- C7: for every palette and colour index, an index at or beyond the palette
length yields `0x00FFFFFF` in both gray and ARGB modes; an in-bounds index
drives `calc_gray` (gray) and `get_argb` (ARGB) with that entry's fields. -/
theorem C7_palette_lookup (pds : PgsPdsSegment) (idx : ℕ) :
    (pds.palette_entries.length ≤ idx →
      get_gray_color idx pds = 0x00FFFFFF ∧ get_argb_color idx pds = 0x00FFFFFF) ∧
    (idx < pds.palette_entries.length →
      get_gray_color idx pds =
        calc_gray (pds.palette_entries.getD idx ⟨0, 0, 0, 0, 0⟩).transparency
          (pds.palette_entries.getD idx ⟨0, 0, 0, 0, 0⟩).luminance ∧
      get_argb_color idx pds =
        get_argb (pds.palette_entries.getD idx ⟨0, 0, 0, 0, 0⟩).luminance
          (pds.palette_entries.getD idx ⟨0, 0, 0, 0, 0⟩).color_difference_blue
          (pds.palette_entries.getD idx ⟨0, 0, 0, 0, 0⟩).color_difference_red
          (pds.palette_entries.getD idx ⟨0, 0, 0, 0, 0⟩).transparency) := by
  constructor
  · intro h
    constructor
    · simp [get_gray_color, h]
    · simp [get_argb_color, h]
  · intro h
    have h' : ¬ pds.palette_entries.length ≤ idx := Nat.not_le.mpr h
    constructor
    · simp [get_gray_color, h']
    · simp [get_argb_color, h']

/-- C7 witness: the lookup theorem at the one-entry fixture palette, index 3
(out of bounds) and index 0 (in bounds). -/
theorem C7_witness :
    (pdsW7.palette_entries.length ≤ 3 ∧
      get_gray_color 3 pdsW7 = 0x00FFFFFF ∧ get_argb_color 3 pdsW7 = 0x00FFFFFF) ∧
    ((0 : ℕ) < pdsW7.palette_entries.length ∧
      get_gray_color 0 pdsW7 = calc_gray 0 50) :=
  ⟨⟨by decide, (C7_palette_lookup pdsW7 3).1 (by decide)⟩,
   ⟨by decide, (((C7_palette_lookup pdsW7 0).2 (by decide)).1).trans rfl⟩⟩

/-- Definitional shape of a run of one more pixel. -/
theorem emitRun_succ (pds : PgsPdsSegment) (gray : Bool) (color : ℕ)
    (pixels : List (List ℕ)) (row col n : ℕ) :
    emitRun pds gray color pixels row col (n + 1) =
      match setPix pixels row col (get_pixel_color color pds gray) with
      | none => none
      | some p => emitRun pds gray color p row (col + 1) n := rfl

/-- A write outside the matrix fails: `setPix` returns `none` when the row
index is out of range or the column is at or past the end of the row. -/
theorem setPix_none (pixels : List (List ℕ)) (row col v : ℕ)
    (h : pixels.length ≤ row ∨ (pixels.getD row []).length ≤ col) :
    setPix pixels row col v = none := by
  unfold setPix
  rcases h with h | h
  · rw [List.getElem?_eq_none h]
  · rcases hlt : pixels[row]? with _ | r
    · rfl
    · have hr : pixels.getD row [] = r := by
        rw [List.getD_eq_getElem?_getD, hlt]; rfl
      dsimp only
      rw [if_neg (by rw [hr] at h; omega)]

/-- A write inside the matrix succeeds and replaces the addressed row. -/
theorem setPix_some (pixels : List (List ℕ)) (row col v : ℕ)
    (hrow : row < pixels.length) (hcol : col < (pixels.getD row []).length) :
    setPix pixels row col v =
      some (pixels.set row ((pixels.getD row []).set col v)) := by
  unfold setPix
  rw [List.getElem?_eq_getElem hrow]
  dsimp only
  have hr : pixels.getD row [] = pixels[row] := by
    rw [List.getD_eq_getElem?_getD, List.getElem?_eq_getElem hrow]; rfl
  rw [if_pos (by rw [hr] at hcol; exact hcol), hr]

/-- A successful write keeps the matrix dimensions. -/
theorem setPix_shape (pixels : List (List ℕ)) (row col v : ℕ)
    (hrow : row < pixels.length) :
    ((pixels.set row ((pixels.getD row []).set col v)).length = pixels.length) ∧
    (((pixels.set row ((pixels.getD row []).set col v)).getD row []).length =
      (pixels.getD row []).length) := by
  refine ⟨List.length_set _ _ _, ?_⟩
  rw [List.getD_eq_getElem?_getD, List.getElem?_set_self hrow]
  simp

/-- An over-long run fails: if the run leaves the matrix, `emitRun` reaches an
out-of-bounds write before it finishes. -/
theorem emitRun_overRun (pds : PgsPdsSegment) (gray : Bool) (color : ℕ) :
    ∀ (n : ℕ) (pixels : List (List ℕ)) (row col : ℕ),
      overRun pixels row col n →
      emitRun pds gray color pixels row col n = none := by
  intro n
  induction n with
  | zero => intro pixels row col h; exact absurd h.1 (by omega)
  | succ n ih =>
    intro pixels row col h
    obtain ⟨-, h⟩ := h
    rw [emitRun_succ]
    by_cases hrow : pixels.length ≤ row
    · rw [setPix_none pixels row col _ (Or.inl hrow)]
    · have hrow' : row < pixels.length := Nat.not_le.mp hrow
      by_cases hcol : (pixels.getD row []).length ≤ col
      · rw [setPix_none pixels row col _ (Or.inr hcol)]
      · have hcol' : col < (pixels.getD row []).length := Nat.not_le.mp hcol
        rw [setPix_some pixels row col _ hrow' hcol']
        dsimp only
        obtain ⟨hl, hg⟩ :=
          setPix_shape pixels row col (get_pixel_color color pds gray) hrow'
        apply ih
        refine ⟨by omega, Or.inr ?_⟩
        rw [hg]
        rcases h with h | h
        · exact absurd h hrow
        · omega


/-- A single-pixel emission at a cursor outside the matrix is fatal. -/
theorem decode_loop_single_fatal (pds : PgsPdsSegment) (gray : Bool)
    (fuel b : ℕ) (rest : List ℕ) (pixels : List (List ℕ)) (row col : ℕ)
    (hb : b ≠ 0)
    (h : pixels.length ≤ row ∨ (pixels.getD row []).length ≤ col) :
    decode_loop pds gray (fuel + 1) (b :: rest) pixels row col =
      .error .RuntimeFault := by
  rw [decode_loop_cons, if_neg hb, setPix_none pixels row col _ h]

/-- An over-long run in encoding `0b00` (short run of colour 0) is fatal. -/
theorem decode_loop_run0_fatal (pds : PgsPdsSegment) (gray : Bool)
    (fuel d : ℕ) (rest2 : List ℕ) (pixels : List (List ℕ)) (row col : ℕ)
    (hd : d ≠ 0) (h0 : (d &&& 0xC0) >>> 6 = 0)
    (hov : overRun pixels row col (byte_to_int d)) :
    decode_loop pds gray (fuel + 1) (0 :: d :: rest2) pixels row col =
      .error .RuntimeFault := by
  rw [decode_loop_cons, if_pos rfl]
  dsimp only
  rw [if_neg hd, if_pos h0,
    emitRun_overRun pds gray 0 (byte_to_int d) pixels row col hov]


/-- An over-long run in encoding `0b01` (long run of colour 0) is fatal. -/
theorem decode_loop_run1_fatal (pds : PgsPdsSegment) (gray : Bool)
    (fuel d l : ℕ) (rest3 : List ℕ) (pixels : List (List ℕ)) (row col : ℕ)
    (hd : d ≠ 0) (h1 : (d &&& 0xC0) >>> 6 = 1)
    (hov : overRun pixels row col
      (byte_to_int l ||| (byte_to_int (d &&& 0x3F) <<< 8))) :
    decode_loop pds gray (fuel + 1) (0 :: d :: l :: rest3) pixels row col =
      .error .RuntimeFault := by
  rw [decode_loop_cons, if_pos rfl]
  dsimp only
  rw [if_neg hd, h1, if_neg one_ne_zero, if_pos rfl]
  rw [emitRun_overRun pds gray 0
    (byte_to_int l ||| (byte_to_int (d &&& 0x3F) <<< 8)) pixels row col hov]

/-- An over-long run in encoding `0b10` (short run of an explicit colour) is
fatal. -/
theorem decode_loop_run2_fatal (pds : PgsPdsSegment) (gray : Bool)
    (fuel d c0 : ℕ) (rest3 : List ℕ) (pixels : List (List ℕ)) (row col : ℕ)
    (hd : d ≠ 0) (h2 : (d &&& 0xC0) >>> 6 = 2)
    (hov : overRun pixels row col (byte_to_int (d &&& 0x3F))) :
    decode_loop pds gray (fuel + 1) (0 :: d :: c0 :: rest3) pixels row col =
      .error .RuntimeFault := by
  rw [decode_loop_cons, if_pos rfl]
  dsimp only
  rw [if_neg hd, h2, if_neg (by norm_num), if_neg (by norm_num), if_pos rfl]
  rw [emitRun_overRun pds gray (byte_to_int c0)
    (byte_to_int (d &&& 0x3F)) pixels row col hov]

/-- An over-long run in encoding `0b11` (long run of an explicit colour) is
fatal. -/
theorem decode_loop_run3_fatal (pds : PgsPdsSegment) (gray : Bool)
    (fuel d l c0 : ℕ) (rest3 : List ℕ) (pixels : List (List ℕ)) (row col : ℕ)
    (hd : d ≠ 0) (h3 : (d &&& 0xC0) >>> 6 = 3)
    (hov : overRun pixels row col
      (byte_to_int l ||| (byte_to_int (d &&& 0x3F) <<< 8))) :
    decode_loop pds gray (fuel + 1) (0 :: d :: l :: c0 :: rest3) pixels row col =
      .error .RuntimeFault := by
  rw [decode_loop_cons, if_pos rfl]
  dsimp only
  rw [if_neg hd, h3, if_neg (by norm_num), if_neg (by norm_num),
    if_neg (by norm_num), if_pos rfl]
  rw [emitRun_overRun pds gray (byte_to_int c0)
    (byte_to_int l ||| (byte_to_int (d &&& 0x3F) <<< 8)) pixels row col hov]


/-- C9: an over-long run is never clamped and rows never wrap: whenever the
cursor is already at or past the end of its row on a single-pixel emission, or
a run (in any of the four encodings) reaches at or past the end of the row,
the decode loop stops with the fatal out-of-bounds error instead of returning
a matrix; at the top level, an ODS whose payload opens with a short run longer
than the row width makes `decode_rle` fail the same way. -/
theorem C9_overlong_run_fatal (pds : PgsPdsSegment) (gray : Bool) (fuel : ℕ)
    (pixels : List (List ℕ)) (row col : ℕ) :
    (∀ (b : ℕ) (rest : List ℕ), b ≠ 0 →
      (pixels.length ≤ row ∨ (pixels.getD row []).length ≤ col) →
      decode_loop pds gray (fuel + 1) (b :: rest) pixels row col =
        .error .RuntimeFault) ∧
    (∀ (d : ℕ) (rest2 : List ℕ), d ≠ 0 → (d &&& 0xC0) >>> 6 = 0 →
      overRun pixels row col (byte_to_int d) →
      decode_loop pds gray (fuel + 1) (0 :: d :: rest2) pixels row col =
        .error .RuntimeFault) ∧
    (∀ (d l : ℕ) (rest3 : List ℕ), d ≠ 0 → (d &&& 0xC0) >>> 6 = 1 →
      overRun pixels row col
        (byte_to_int l ||| (byte_to_int (d &&& 0x3F) <<< 8)) →
      decode_loop pds gray (fuel + 1) (0 :: d :: l :: rest3) pixels row col =
        .error .RuntimeFault) ∧
    (∀ (d c0 : ℕ) (rest3 : List ℕ), d ≠ 0 → (d &&& 0xC0) >>> 6 = 2 →
      overRun pixels row col (byte_to_int (d &&& 0x3F)) →
      decode_loop pds gray (fuel + 1) (0 :: d :: c0 :: rest3) pixels row col =
        .error .RuntimeFault) ∧
    (∀ (d l c0 : ℕ) (rest3 : List ℕ), d ≠ 0 → (d &&& 0xC0) >>> 6 = 3 →
      overRun pixels row col
        (byte_to_int l ||| (byte_to_int (d &&& 0x3F) <<< 8)) →
      decode_loop pds gray (fuel + 1) (0 :: d :: l :: c0 :: rest3) pixels
        row col = .error .RuntimeFault) ∧
    (∀ (ods : PgsOdsSegment) (d : ℕ) (tail : List ℕ),
      ods.object_data = 0 :: d :: tail → d ≠ 0 → (d &&& 0xC0) >>> 6 = 0 →
      overRun (List.replicate ods.height (List.replicate ods.width 0)) 0 0
        (byte_to_int d) →
      decode_rle pds ods gray = .error .RuntimeFault) := by
  refine ⟨?_, ?_, ?_, ?_, ?_, ?_⟩
  · intro b rest hb h
    exact decode_loop_single_fatal pds gray fuel b rest pixels row col hb h
  · intro d rest2 hd h0 hov
    exact decode_loop_run0_fatal pds gray fuel d rest2 pixels row col hd h0 hov
  · intro d l rest3 hd h1 hov
    exact decode_loop_run1_fatal pds gray fuel d l rest3 pixels row col hd h1 hov
  · intro d c0 rest3 hd h2 hov
    exact decode_loop_run2_fatal pds gray fuel d c0 rest3 pixels row col hd h2 hov
  · intro d l c0 rest3 hd h3 hov
    exact decode_loop_run3_fatal pds gray fuel d l c0 rest3 pixels row col hd
      h3 hov
  · intro ods d tail hdata hd h0 hov
    unfold decode_rle
    rw [hdata, List.length_cons, List.length_cons]
    exact decode_loop_run0_fatal pds gray (tail.length + 1) d tail _ 0 0 hd h0 hov

/-- C9 witness: the width-2, height-1 object whose payload `00 03` encodes a
run of three zero pixels; the decode fails with the out-of-bounds error. -/
theorem C9_witness :
    odsW9.object_data = 0 :: 3 :: [] ∧ (3 : ℕ) ≠ 0 ∧
    ((3 : ℕ) &&& 0xC0) >>> 6 = 0 ∧
    overRun (List.replicate odsW9.height (List.replicate odsW9.width 0)) 0 0
      (byte_to_int 3) ∧
    decode_rle pdsW9 odsW9 false = .error .RuntimeFault :=
  ⟨rfl, by decide, by decide, by decide,
    (C9_overlong_run_fatal pdsW9 false 0 [] 0 0).2.2.2.2.2 odsW9 3 [] rfl
      (by decide) (by decide) (by decide)⟩

end Pgs
